import Mathlib

/-!
Verification of the reminder/broadcast core of the telegram-bot repository.

The development shallowly embeds `broadcast.py` and `reminders.py`:

* the broadcast dispatcher's per-chat retry loop (`broadcast_message`) becomes a
  pure function over the sequence of results the Telegram API returns for the
  successive physical send attempts of one chat;
* the eligibility generator (`_eligible_chats`) becomes a list filter, with the
  live `bot.get_chat` lookup supplied as an oracle;
* the reminder subsystem (`schedule_reminder`, `unschedule_reminder`,
  `restore_reminders`, `_fire_reminder`, the toggle/delete/create handlers)
  becomes a state machine over a store of reminder rows plus the scheduler's
  job table; Python exceptions (`ValueError` from `int()` / trigger
  construction) are modelled with `Except`;
* instants are minutes since an epoch that falls on a Monday 00:00, so
  `weekday(i) = (i / 1440) % 7` with Monday = 0 exactly as in Python's
  `date.weekday()`, and a week is 10080 minutes.  Timezone/DST distortions are
  outside the model: time is linear, matching the arithmetic the code performs
  on wall-clock values.
-/

set_option maxHeartbeats 1000000

namespace TgBot

/-! ## Broadcast dispatcher (broadcast.py, lines 49-81) -/

/-- Result of one physical `bot.send_message` / `bot.send_photo` call, i.e. the
exception class aiogram raises, if any (`TelegramForbiddenError`,
`TelegramRetryAfter` with its `retry_after` seconds, `TelegramBadRequest`, or
any other `Exception`). -/
inductive SendResult
  | ok
  | forbidden
  | retryAfter (seconds : ℚ)
  | badRequest
  | unknownErr
  deriving DecidableEq

/-- Observable side effect of one iteration of the per-chat attempt loop. -/
inductive ChatEvent
  | sent
  | markedInactive
  | sleptRate (seconds : ℚ)
  | sleptDelay (seconds : ℚ)
  | badRequestLogged
  deriving DecidableEq

/-- How the attempt loop for one chat terminates. -/
inductive ChatOutcome
  | delivered
  | forbiddenInactive
  | badRequestAbandoned
  | exhausted
  deriving DecidableEq

/-- The `settings` fields the dispatcher reads:
`broadcast_retry_count` (default 3) and `broadcast_retry_delay` (default 2s). -/
structure BroadcastConfig where
  retryCount : Nat
  retryDelay : ℚ
  deriving DecidableEq

/-- The body of `for attempt in range(1, settings.broadcast_retry_count + 1)`
in `broadcast_message` (lines 56-81), given the list of results of the physical
sends of the successive iterations.  Success, `TelegramForbiddenError`
(mark inactive) and `TelegramBadRequest` all `break`; `TelegramRetryAfter`
sleeps `retry_after + 0.5` and falls through to the next iteration; a generic
`Exception` sleeps `broadcast_retry_delay` and `continue`s.  An empty list
means the loop ran out of iterations. -/
def runAttempts (cfg : BroadcastConfig) : List SendResult → List ChatEvent × ChatOutcome
  | [] => ([], .exhausted)
  | r :: rest =>
    match r with
    | .ok => ([.sent], .delivered)
    | .forbidden => ([.markedInactive], .forbiddenInactive)
    | .retryAfter s =>
      let p := runAttempts cfg rest
      (.sleptRate (s + 1/2) :: p.1, p.2)
    | .badRequest => ([.badRequestLogged], .badRequestAbandoned)
    | .unknownErr =>
      let p := runAttempts cfg rest
      (.sleptDelay cfg.retryDelay :: p.1, p.2)

/-- The whole per-chat loop: at most `broadcast_retry_count` iterations, the
`i`-th physical send returning `oracle i`. -/
def dispatchChat (cfg : BroadcastConfig) (oracle : Nat → SendResult) :
    List ChatEvent × ChatOutcome :=
  runAttempts cfg ((List.range cfg.retryCount).map oracle)

/-- The outer loop of `broadcast_message` over over the eligible chats: each chat is
handled independently by its own attempt loop; no exception escapes the loop
body, so the run always processes every chat. -/
def broadcastRun (cfg : BroadcastConfig) (chats : List (Int × (Nat → SendResult))) :
    List (Int × (List ChatEvent × ChatOutcome)) :=
  chats.map fun c => (c.1, dispatchChat cfg c.2)

/-! ## Chat eligibility (broadcast.py, lines 17-46) -/

/-- A row of `db.get_active_chats()`: `chat_id`, `type`, `title`. -/
structure ChatRec where
  chat_id : Int
  ctype : String
  title : Option String
  deriving DecidableEq

/-- Model of `_sanitize_title` (lines 17-20): `""` for falsy input, otherwise
`title.replace("*", "").strip().upper()`. -/
def sanitizeTitle : Option String → String
  | none => ""
  | some t => if t = "" then "" else ((t.replace "*" "").trim.toUpper)

/-- Whether `needle` occurs at the start of `hay`. -/
def startsWithChars : List Char → List Char → Bool
  | [], _ => true
  | _ :: _, [] => false
  | a :: as, b :: bs => a = b && startsWithChars as bs

/-- Whether `needle` occurs contiguously anywhere in the haystack
(Python's `in` on strings). -/
def containsChars (needle : List Char) : List Char → Bool
  | [] => needle.isEmpty
  | c :: cs => startsWithChars needle (c :: cs) || containsChars needle cs

/-- Python `"INACTIVE" in s`. -/
def hasInactiveMarker (s : String) : Bool :=
  containsChars "INACTIVE".toList s.toList

/-- Result of the `bot.get_chat` live lookup: the call raises, or returns an
object whose `title` attribute is read with `getattr(live_chat, "title", title)`
(so `foundNoTitleAttr` falls back to the cached title). -/
inductive TitleLookup
  | failure
  | found (title : Option String)
  | foundNoTitleAttr
  deriving DecidableEq

/-- Store state read by `_eligible_chats`: `get_active_chats()`,
`get_additional_admin_ids()`, `get_approved_chat_ids()`. -/
structure ChatStore where
  activeChats : List ChatRec
  additionalAdminIds : List Int
  approvedChatIdsStored : List Int

/-- Static configuration read by `_eligible_chats`: `settings.admin_ids` and
`settings.approved_chat_ids`. -/
structure EligCfg where
  adminIds : List Int
  approvedChatIds : List Int

/-- The loop body of `_eligible_chats` (lines 28-46) deciding whether `chat`
is yielded; `lookup` supplies the outcome of the live `bot.get_chat` call. -/
def chatPasses (cfg : EligCfg) (store : ChatStore) (ignoreInactive : Bool)
    (lookup : Int → TitleLookup) (chat : ChatRec) : Bool :=
  let adminIds := cfg.adminIds ++ store.additionalAdminIds
  let approved := cfg.approvedChatIds ++ store.approvedChatIdsStored
  if approved.contains chat.chat_id then false
  else if chat.ctype = "private" && adminIds.contains chat.chat_id then false
  else if ignoreInactive && (chat.ctype = "group" || chat.ctype = "supergroup") then
    if hasInactiveMarker (sanitizeTitle chat.title) then false
    else
      match lookup chat.chat_id with
      | .failure => true
      | .foundNoTitleAttr => !hasInactiveMarker (sanitizeTitle chat.title)
      | .found t => !hasInactiveMarker (sanitizeTitle t)
  else true

/-- Model of `_eligible_chats` as a whole: the active chats that pass the filter, in
store order. -/
def eligibleChats (cfg : EligCfg) (store : ChatStore) (ignoreInactive : Bool)
    (lookup : Int → TitleLookup) : List ChatRec :=
  store.activeChats.filter (chatPasses cfg store ignoreInactive lookup)

/-- Restatement of claim C7's wording, written from the specification text and
to be compared with the filter extracted from the source: the chat is (a) not
in the approved allow-list (static union stored), (b) not a private chat of an
admin (static union stored), and (c) under `ignore_inactive`, for groups and
supergroups, bears no INACTIVE marker in the cached title nor in a title
obtained from a successful live lookup; a failed lookup leaves the cached
(eligible) verdict in force. -/
def eligibleSpecPred (cfg : EligCfg) (store : ChatStore) (ignoreInactive : Bool)
    (lookup : Int → TitleLookup) (chat : ChatRec) : Prop :=
  chat.chat_id ∉ (cfg.approvedChatIds ++ store.approvedChatIdsStored) ∧
  ¬(chat.ctype = "private" ∧ chat.chat_id ∈ (cfg.adminIds ++ store.additionalAdminIds)) ∧
  (ignoreInactive = true → (chat.ctype = "group" ∨ chat.ctype = "supergroup") →
    hasInactiveMarker (sanitizeTitle chat.title) = false ∧
    (∀ t, lookup chat.chat_id = .found t → hasInactiveMarker (sanitizeTitle t) = false) ∧
    (lookup chat.chat_id = .foundNoTitleAttr →
      hasInactiveMarker (sanitizeTitle chat.title) = false))

/-! ## Reminder subsystem (reminders.py) -/

/-- A row of the `reminders` table as returned by `db.get_reminder` /
`db.get_reminders`.  `Option` fields model SQL NULL; `weekday` is `Nat`
because all writers store values 0..6.  Instants (`run_at`, `now`) are
minutes since a Monday-00:00 epoch. -/
structure Reminder where
  id : Nat
  text : String
  rtype : String
  run_at : Option Nat := none
  time_of_day : Option String := none
  weekday : Option Nat := none
  weekdays : Option String := none
  every_n_weeks : Nat := 1
  media_path : Option String := none
  active : Bool := true
  deriving DecidableEq

/-- The trigger a job is registered with (apscheduler `DateTrigger`,
`CronTrigger` with hour/minute and optional `day_of_week`, or
`IntervalTrigger(weeks=..., start_date=...)`).  Day-of-week values are stored
after the validation apscheduler performs on the strings the code passes. -/
inductive Trigger
  | dateTrig (runAt : Nat)
  | cronDaily (hour minute : Nat)
  | cronWeekly (dayOfWeek : Nat) (hour minute : Nat)
  | cronMulti (daysOfWeek : List Nat) (hour minute : Nat)
  | intervalWeeks (weeks : Nat) (start : Nat)
  deriving DecidableEq

/-- Joint state of the reminder store and of the scheduler's job table
(jobs keyed by their string id, as in `add_job(id=...)`). -/
structure SysState where
  reminders : List Reminder
  jobs : List (String × Trigger)
  deriving DecidableEq

/-- Model of `_job_id` (lines 390-391): `f"reminder_{reminder_id}"`. -/
def jobId (i : Nat) : String := "reminder_" ++ Nat.repr i

/-- Model of `db.get_reminder`: the row with the given primary key. -/
def getReminder (st : SysState) (i : Nat) : Option Reminder :=
  st.reminders.find? fun r => r.id == i

/-- Model of `db.set_reminder_active`: `UPDATE reminders SET active=? WHERE id=?`. -/
def setReminderActive (st : SysState) (i : Nat) (b : Bool) : SysState :=
  { st with reminders := st.reminders.map fun r => if r.id == i then { r with active := b } else r }

/-- Model of `db.delete_reminder`: `DELETE FROM reminders WHERE id=?`. -/
def deleteReminder (st : SysState) (i : Nat) : SysState :=
  { st with reminders := st.reminders.filter fun r => r.id != i }

/-- Model of `db.get_active_reminders`: `SELECT * FROM reminders WHERE active=1`. -/
def getActiveReminders (st : SysState) : List Reminder :=
  st.reminders.filter fun r => r.active

/-- Model of `scheduler.add_job(..., id=k, replace_existing=True)`: replace-by-id as a
single transition. -/
def addJobReplace (st : SysState) (k : String) (t : Trigger) : SysState :=
  { st with jobs := (k, t) :: st.jobs.filter fun j => j.1 != k }

/-- Model of `unschedule_reminder` (lines 368-374): remove the job with id
`reminder_<i>` if present, otherwise do nothing (assuming the module-level
scheduler is configured). -/
def unscheduleReminder (st : SysState) (i : Nat) : SysState :=
  { st with jobs := st.jobs.filter fun j => j.1 != jobId i }

/-- Python `str.split(sep)` for a one-character separator: the pieces between
separator occurrences, keeping empty pieces (`"".split(":") == [""]`). -/
def splitOnChar (sep : Char) : List Char → List (List Char)
  | [] => [[]]
  | c :: rest =>
    let r := splitOnChar sep rest
    if c = sep then [] :: r
    else
      match r with
      | [] => [[c]]
      | p :: ps => (c :: p) :: ps

/-- Python `str.strip()`: drop whitespace from both ends. -/
def trimChars (cs : List Char) : List Char :=
  ((cs.dropWhile Char.isWhitespace).reverse.dropWhile Char.isWhitespace).reverse

/-- Model of Python `int(s)` on the strings at hand: optional sign after
stripping surrounding whitespace, then decimal digits (PEP-515 underscore
grouping is not modelled; no schedule string ever contains it). -/
def pyIntChars? (cs : List Char) : Option Int :=
  match trimChars cs with
  | [] => none
  | c :: rest =>
    let signed : Bool × List Char :=
      if c = '-' then (true, rest)
      else if c = '+' then (false, rest)
      else (false, c :: rest)
    if signed.2.length > 0 && signed.2.all Char.isDigit then
      let n : Nat := signed.2.foldl (fun a c => 10 * a + (c.toNat - 48)) 0
      some (if signed.1 then -(n : Int) else (n : Int))
    else none

/-- Python `int(s)` on a string. -/
def pyInt? (s : String) : Option Int := pyIntChars? s.toList

/-- Model of `hours, minutes = map(int, time_of_day.split(":"))`: `none` models the
`ValueError` Python raises when the string is not two colon-separated
integers. -/
def parseHM (s : String) : Option (Int × Int) :=
  match (splitOnChar ':' s.toList).map pyIntChars? with
  | [some h, some m] => some (h, m)
  | _ => none

/-- Field validation performed by `datetime.time(hour=..., minute=...)` and by
`CronTrigger(hour=..., minute=...)`: both raise `ValueError` outside
0..23 / 0..59. -/
def mkTime? (h m : Int) : Option (Nat × Nat) :=
  if 0 ≤ h ∧ h ≤ 23 ∧ 0 ≤ m ∧ m ≤ 59 then some (h.toNat, m.toNat) else none

/-- Model of `_next_occurrence` (lines 468-476) in the minute-granularity model:
`today` is the day index of `now`, `days_ahead = (target_weekday -
today.weekday()) % 7` (the `+ 7` keeps the subtraction from truncating and is
erased by the outer `% 7`, matching Python's nonnegative `%`), the candidate
is that day at the target time, and a candidate at or before now moves one
week ahead. -/
def nextOccurrence (now : Nat) (targetWeekday : Nat) (targetMinute : Nat) : Nat :=
  let today := now / 1440
  let daysAhead := (targetWeekday + 7 - today % 7) % 7
  let nextDate := today + daysAhead
  let candidate := nextDate * 1440 + targetMinute
  if candidate ≤ now then candidate + 10080 else candidate

/-- What `schedule_reminder`'s body decides to do after the initial
`unschedule_reminder` call: nothing, deactivate the row, register a trigger,
or raise. -/
inductive SchedDecision
  | noop
  | deactivate
  | register (t : Trigger)
  | raise (e : String)
  deriving DecidableEq

/-- Model of the parsing `CronTrigger` performs on the comma-joined
`day_of_week` string the `twice` branch passes, restricted to the format the
creation flow stores (`",".join(str(day) ...)` with days 0..6): every token
must be an integer weekday 0..6, else the trigger constructor raises
`ValueError`. -/
def parseDowList : List (List Char) → Option (List Nat)
  | [] => some []
  | p :: rest =>
    match pyIntChars? p with
    | none => none
    | some v =>
      if 0 ≤ v ∧ v ≤ 6 then (parseDowList rest).map fun ds => v.toNat :: ds
      else none

/-- The branch structure of `schedule_reminder` (lines 325-365) as a pure
decision on the row.  A `once` reminder with a past `run_at` is deactivated
and left unscheduled; a missing `run_at` or a missing/empty `time_of_day` is
a silent no-op; an unparseable `time_of_day`, or an invalid field at trigger
construction, raises `ValueError` (`.raise`).  `weekday` is read as
`reminder.get("weekday", 0)`; a row always carries the key, so SQL NULL
surfaces as `None` and makes the weekly `CronTrigger(day_of_week=str(None))`
raise, and the biweekly `_next_occurrence(None, ...)` raise a `TypeError`.
An unrecognised type falls through every branch after the time parse and
registers nothing. -/
def schedDecision (now : Nat) (r : Reminder) : SchedDecision :=
  if r.rtype = "once" then
    match r.run_at with
    | none => .noop
    | some runAt =>
      if runAt < now then .deactivate
      else .register (.dateTrig runAt)
  else
    match r.time_of_day with
    | none => .noop
    | some tod =>
      if tod = "" then .noop
      else
        match parseHM tod with
        | none => .raise "ValueError: invalid literal for int()"
        | some (h, m) =>
          if r.rtype = "daily" then
            match mkTime? h m with
            | none => .raise "ValueError: cron field out of range"
            | some (hh, mm) => .register (.cronDaily hh mm)
          else if r.rtype = "weekly" then
            match r.weekday with
            | none => .raise "ValueError: invalid day_of_week"
            | some d =>
              if d ≤ 6 then
                match mkTime? h m with
                | none => .raise "ValueError: cron field out of range"
                | some (hh, mm) => .register (.cronWeekly d hh mm)
              else .raise "ValueError: invalid day_of_week"
          else if r.rtype = "biweekly" then
            match r.weekday with
            | none => .raise "TypeError: unsupported operand"
            | some d =>
              match mkTime? h m with
              | none => .raise "ValueError: time field out of range"
              | some (hh, mm) =>
                .register (.intervalWeeks r.every_n_weeks (nextOccurrence now d (hh * 60 + mm)))
          else if r.rtype = "twice" then
            let parts := ((splitOnChar ',' (r.weekdays.getD "").toList).filter fun p => p ≠ [])
            if parts = [] then .noop
            else
              match parseDowList parts with
              | none => .raise "ValueError: invalid day_of_week"
              | some days =>
                match mkTime? h m with
                | none => .raise "ValueError: cron field out of range"
                | some (hh, mm) => .register (.cronMulti days hh mm)
          else .noop

/-- Model of `schedule_reminder` (lines 320-365), assuming the module-level
scheduler is configured: first `unschedule_reminder`, then the decision's effect on the
store/scheduler state. -/
def scheduleReminder (now : Nat) (st : SysState) (r : Reminder) : Except String SysState :=
  let st1 := unscheduleReminder st r.id
  match schedDecision now r with
  | .noop => .ok st1
  | .deactivate => .ok (setReminderActive st1 r.id false)
  | .register t => .ok (addJobReplace st1 (jobId r.id) t)
  | .raise e => .error e

/-- Model of `restore_reminders` (lines 314-317): fetch the active reminders once, then
schedule each in order. -/
def restoreReminders (now : Nat) (st : SysState) : Except String SysState :=
  (getActiveReminders st).foldlM (fun s r => scheduleReminder now s r) st

/-- Largest stored id plus one: the fresh primary key sqlite assigns on
insert. -/
def freshId (st : SysState) : Nat :=
  st.reminders.foldr (fun r acc => max r.id acc) 0 + 1

/-- Model of `db.insert_reminder` called from `_finalize_reminder`: the row is stored
with the fresh primary key and `active=1`. -/
def insertReminder (st : SysState) (r0 : Reminder) : SysState :=
  { st with reminders := st.reminders ++ [{ r0 with id := freshId st, active := true }] }

/-- Model of `_finalize_reminder` (lines 173-198) after the conversational flow has
produced the field values: `db.insert_reminder` stores the row with
`active=1`, the row is read back, and `schedule_reminder` runs on it. -/
def createReminder (now : Nat) (st : SysState) (r0 : Reminder) : Except String SysState :=
  match getReminder (insertReminder st r0) (freshId st) with
  | none => .ok (insertReminder st r0)
  | some r2 => scheduleReminder now (insertReminder st r0) r2

/-- Model of `reminders_toggle` (lines 284-301), past the admin check: flip the stored
flag (`new_state = not active`), then schedule the previously fetched row or
unschedule by id. -/
def toggleReminder (now : Nat) (st : SysState) (i : Nat) : Except String SysState :=
  match getReminder st i with
  | none => .ok st
  | some r =>
    if !r.active then scheduleReminder now (setReminderActive st i (!r.active)) r
    else .ok (unscheduleReminder (setReminderActive st i (!r.active)) i)

/-- Model of `reminders_delete` (lines 303-311), past the admin check: delete the row,
then unschedule the job id. -/
def deleteAndUnschedule (st : SysState) (i : Nat) : SysState :=
  unscheduleReminder (deleteReminder st i) i

/-- Observable actions of `_fire_reminder`. -/
inductive FireAction
  | broadcastMsg (text : String) (photo : Option String)
  | storeSetActive (id : Nat) (b : Bool)
  | schedRemoveJob (id : Nat)
  deriving DecidableEq

/-- Model of `_fire_reminder` (lines 377-387), assuming the module-level bot is
configured: a missing or inactive row is a complete no-op; otherwise the
broadcast dispatch runs first, and only a `once` reminder is afterwards
deactivated and unscheduled. -/
def fireReminder (st : SysState) (i : Nat) : SysState × List FireAction :=
  match getReminder st i with
  | none => (st, [])
  | some r =>
    if r.active = false then (st, [])
    else if r.rtype = "once" then
      (unscheduleReminder (setReminderActive st i false) i,
       [.broadcastMsg r.text r.media_path, .storeSetActive i false, .schedRemoveJob i])
    else (st, [.broadcastMsg r.text r.media_path])

/-! ## The reminder/job invariant (claim C2) -/

/-- Number of scheduler jobs whose id is `reminder_<i>`. -/
def jobCount (st : SysState) (i : Nat) : Nat :=
  st.jobs.countP fun j => j.1 == jobId i

/-- The spec's invariant: an existing active reminder owns exactly one job
`reminder_<id>`; an inactive reminder owns none; an id with no reminder row
(deleted) owns none. -/
def RemindersInv (st : SysState) : Prop :=
  (∀ r ∈ st.reminders, jobCount st r.id = if r.active then 1 else 0) ∧
  (∀ i : Nat, (∀ r ∈ st.reminders, r.id ≠ i) → jobCount st i = 0)

/-- The `time_of_day` strings that schedule without error: two colon-separated
integers within `datetime.time` / cron ranges.  Every string the creation
flow stores (`strftime("%H:%M")`) satisfies this. -/
def validHM (s : String) : Bool :=
  match parseHM s with
  | some (h, m) => decide (0 ≤ h ∧ h ≤ 23 ∧ 0 ≤ m ∧ m ≤ 59)
  | none => false

/-- The `weekdays` strings that schedule without error and register a job:
at least one nonempty comma-separated token, each an integer 0..6.  The
creation flow stores `",".join(str(day) ...)` with days from
`_weekday_from_name`, which satisfies this. -/
def validDow (s : String) : Bool :=
  let parts := ((splitOnChar ',' s.toList).filter fun p => p ≠ [])
  !parts.isEmpty && parts.all fun p =>
    match pyIntChars? p with
    | some v => decide (0 ≤ v ∧ v ≤ 6)
    | none => false

/-- Rows as the creation handlers produce them: one of the five types, with
the schedule fields of that type present and valid.  (`id` and `active` are
irrelevant to this predicate.) -/
def wfReminder (r : Reminder) : Bool :=
  if r.rtype = "once" then r.run_at.isSome
  else if r.rtype = "daily" then validHM (r.time_of_day.getD "")
  else if r.rtype = "weekly" then
    validHM (r.time_of_day.getD "") && (match r.weekday with | some d => d ≤ 6 | none => false)
  else if r.rtype = "biweekly" then
    validHM (r.time_of_day.getD "") && r.weekday.isSome
  else if r.rtype = "twice" then
    validHM (r.time_of_day.getD "") && validDow (r.weekdays.getD "")
  else false

/-- Store well-formedness: distinct primary keys and creation-shaped rows. -/
def SysWF (st : SysState) : Prop :=
  st.reminders.Pairwise (fun a b => a.id ≠ b.id) ∧ ∀ r ∈ st.reminders, wfReminder r = true

/-! ### Concrete sample states used to instantiate the theorems -/

/-- The startup state: empty store, fresh scheduler. -/
def emptySys : SysState := ⟨[], []⟩

/-- A daily reminder as the creation flow stores it. -/
def sampleDaily : Reminder :=
  { id := 0, text := "standup", rtype := "daily", time_of_day := some "09:00" }

/-- A daily row whose `time_of_day` is a non-empty string that is not two
colon-separated integers. -/
def badTimeReminder : Reminder :=
  { id := 1, text := "x", rtype := "daily", time_of_day := some "soon" }

/-- A daily row with `time_of_day` NULL. -/
def noTimeReminder : Reminder := { id := 2, text := "y", rtype := "daily" }

/-- A biweekly reminder for Monday 09:00 as the creation flow stores it. -/
def sampleBiweekly : Reminder :=
  { id := 3, text := "payday", rtype := "biweekly", time_of_day := some "09:00",
    weekday := some 0, every_n_weeks := 2 }

/-- A pending one-shot reminder. -/
def sampleOnce : Reminder :=
  { id := 4, text := "launch", rtype := "once", run_at := some 5000 }

/-- Store and scheduler holding `sampleOnce` and its job. -/
def onceState : SysState := ⟨[sampleOnce], [(jobId 4, .dateTrig 5000)]⟩

/-- A one-shot reminder whose `run_at` is already past. -/
def pastOnce : Reminder :=
  { id := 5, text := "old", rtype := "once", run_at := some 100 }

/-- A reminder that has been disabled. -/
def staleReminder : Reminder :=
  { id := 6, text := "z", rtype := "daily", time_of_day := some "08:00", active := false }

/-! ### Distinct reminder ids give distinct job-id strings -/

/-- Numeric value of a decimal digit character. -/
def digitVal (c : Char) : Nat := c.toNat - 48

theorem digitVal_digitChar : ∀ m < 10, digitVal (Nat.digitChar m) = m := by decide

theorem toDigitsCore_append (fuel : Nat) :
    ∀ (n : Nat) (ds : List Char),
      Nat.toDigitsCore 10 fuel n ds = Nat.toDigitsCore 10 fuel n [] ++ ds := by
  induction fuel with
  | zero => intro n ds; simp [Nat.toDigitsCore]
  | succ f ih =>
    intro n ds
    simp only [Nat.toDigitsCore]
    by_cases h : n / 10 = 0
    · simp [h]
    · simp only [h, if_false]
      rw [ih (n / 10) (Nat.digitChar (n % 10) :: ds),
        ih (n / 10) [Nat.digitChar (n % 10)], List.append_assoc]
      rfl

theorem foldl_digitVal_toDigitsCore (fuel : Nat) :
    ∀ n a : Nat, n < fuel →
      List.foldl (fun a c => 10 * a + digitVal c) a (Nat.toDigitsCore 10 fuel n []) =
        a * 10 ^ (Nat.toDigitsCore 10 fuel n []).length + n := by
  induction fuel with
  | zero => intro n a h; omega
  | succ f ih =>
    intro n a h
    by_cases h10 : n / 10 = 0
    · have hn : n < 10 := by omega
      simp [Nat.toDigitsCore, h10, List.foldl, Nat.mod_eq_of_lt hn,
        digitVal_digitChar n hn]
      omega
    · have hstep : Nat.toDigitsCore 10 (f + 1) n [] =
          Nat.toDigitsCore 10 f (n / 10) [] ++ [Nat.digitChar (n % 10)] := by
        simp only [Nat.toDigitsCore, h10, if_false]
        exact toDigitsCore_append f (n / 10) [Nat.digitChar (n % 10)]
      have hlt : n / 10 < f := by
        have h1 : n / 10 < n := Nat.div_lt_self (by omega) (by omega)
        omega
      rw [hstep, List.foldl_append, ih (n / 10) a hlt, List.length_append]
      simp only [List.foldl, List.length_cons, List.length_nil,
        digitVal_digitChar (n % 10) (Nat.mod_lt n (by omega))]
      have hsplit : 10 * (n / 10) + n % 10 = n := Nat.div_add_mod n 10
      have hpow : 10 ^ ((Nat.toDigitsCore 10 f (n / 10) []).length + (0 + 1)) =
          10 ^ (Nat.toDigitsCore 10 f (n / 10) []).length * 10 := by
        rw [Nat.pow_succ]
      rw [hpow]
      generalize (10 : Nat) ^ (Nat.toDigitsCore 10 f (n / 10) []).length = P
      have : a * (P * 10) = a * P * 10 := by ring
      rw [this]
      omega

theorem natRepr_injective {m n : Nat} (h : Nat.repr m = Nat.repr n) : m = n := by
  have hdata : (Nat.toDigits 10 m) = (Nat.toDigits 10 n) := congrArg String.data h
  have hm := foldl_digitVal_toDigitsCore (m + 1) m 0 (Nat.lt_succ_self m)
  have hn := foldl_digitVal_toDigitsCore (n + 1) n 0 (Nat.lt_succ_self n)
  have hm' : List.foldl (fun a c => 10 * a + digitVal c) 0 (Nat.toDigits 10 m) = m := by
    simpa [Nat.toDigits] using hm
  have hn' : List.foldl (fun a c => 10 * a + digitVal c) 0 (Nat.toDigits 10 n) = n := by
    simpa [Nat.toDigits] using hn
  rw [← hm', ← hn', hdata]

theorem jobId_inj {i j : Nat} (h : jobId i = jobId j) : i = j := by
  have hdata : "reminder_".data ++ (Nat.repr i).data = "reminder_".data ++ (Nat.repr j).data := by
    have := congrArg String.data h
    simpa [jobId, String.data_append] using this
  exact natRepr_injective (String.ext (List.append_cancel_left hdata))

theorem jobId_ne {i j : Nat} (h : i ≠ j) : jobId i ≠ jobId j :=
  fun he => h (jobId_inj he)

/-! ### Job-count bookkeeping -/

theorem countP_filter_same (jobs : List (String × Trigger)) (k : String) :
    ((jobs.filter fun j => j.1 != k).countP fun j => j.1 == k) = 0 := by
  rw [List.countP_eq_zero]
  intro j hj
  have := (List.mem_filter.mp hj).2
  simpa using this

theorem countP_filter_other (jobs : List (String × Trigger)) {k key : String} (h : key ≠ k) :
    ((jobs.filter fun j => j.1 != k).countP fun j => j.1 == key) =
      jobs.countP fun j => j.1 == key := by
  induction jobs with
  | nil => rfl
  | cons j rest ih =>
    by_cases hk : j.1 = k
    · have h1 : (j.1 != k) = false := by simp [hk]
      have h2 : (j.1 == key) = false := by
        simp only [hk, beq_eq_false_iff_ne, ne_eq]
        exact fun he => h he.symm
      simp [List.filter_cons, List.countP_cons, h1, h2, ih]
    · have h1 : (j.1 != k) = true := by simp [hk]
      simp [List.filter_cons, List.countP_cons, h1, ih]

theorem jobCount_unschedule_same (st : SysState) (i : Nat) :
    jobCount (unscheduleReminder st i) i = 0 :=
  countP_filter_same st.jobs (jobId i)

theorem jobCount_unschedule_other (st : SysState) {i i' : Nat} (h : i' ≠ i) :
    jobCount (unscheduleReminder st i) i' = jobCount st i' :=
  countP_filter_other st.jobs (jobId_ne h)

theorem jobCount_addJob_same (st : SysState) (i : Nat) (t : Trigger) :
    jobCount (addJobReplace st (jobId i) t) i = 1 := by
  simp [jobCount, addJobReplace, List.countP_cons, countP_filter_same st.jobs (jobId i)]

theorem jobCount_addJob_other (st : SysState) (t : Trigger) {i i' : Nat} (h : i' ≠ i) :
    jobCount (addJobReplace st (jobId i) t) i' = jobCount st i' := by
  have hne : jobId i' ≠ jobId i := jobId_ne h
  have hhead : ((jobId i, t).1 == jobId i') = false := by
    simp only [beq_eq_false_iff_ne, ne_eq]
    exact fun he => hne he.symm
  simp [jobCount, addJobReplace, List.countP_cons, hhead,
    countP_filter_other st.jobs hne]

theorem jobCount_setActive (st : SysState) (i : Nat) (b : Bool) (i' : Nat) :
    jobCount (setReminderActive st i b) i' = jobCount st i' := rfl

theorem jobCount_delete (st : SysState) (i i' : Nat) :
    jobCount (deleteReminder st i) i' = jobCount st i' := rfl

/-! ### Row bookkeeping -/

theorem getReminder_eq_some {st : SysState} {i : Nat} {r : Reminder}
    (h : getReminder st i = some r) : r ∈ st.reminders ∧ r.id = i := by
  refine ⟨List.mem_of_find?_eq_some h, ?_⟩
  have := List.find?_some h
  simpa using this

theorem getReminder_eq_none {st : SysState} {i : Nat}
    (h : getReminder st i = none) : ∀ r ∈ st.reminders, r.id ≠ i := by
  intro r hr
  have := List.find?_eq_none.mp h r hr
  simpa using this

theorem unique_id {st : SysState} (hpw : st.reminders.Pairwise fun a b => a.id ≠ b.id)
    {r₁ r₂ : Reminder} (h₁ : r₁ ∈ st.reminders) (h₂ : r₂ ∈ st.reminders)
    (h : r₁.id = r₂.id) : r₁ = r₂ := by
  by_contra hne
  exact hpw.forall (fun a b hab => (hab ∘ Eq.symm)) h₁ h₂ hne h

theorem wfReminder_setActive (r : Reminder) (b : Bool) :
    wfReminder { r with active := b } = wfReminder r := by
  cases r; rfl

theorem setActive_row_elim {st : SysState} {i : Nat} {b : Bool} {r' : Reminder}
    (h : r' ∈ (setReminderActive st i b).reminders) :
    ∃ r ∈ st.reminders, r' = (if r.id = i then { r with active := b } else r) := by
  simp only [setReminderActive, List.mem_map] at h
  obtain ⟨r, hr, he⟩ := h
  refine ⟨r, hr, ?_⟩
  by_cases hid : r.id = i
  · simp only [if_pos hid]
    rw [← he]
    simp [hid]
  · simp only [if_neg hid]
    rw [← he]
    simp [hid]

theorem setActive_row_intro {st : SysState} {i : Nat} {b : Bool} {r : Reminder}
    (hr : r ∈ st.reminders) :
    (if r.id = i then { r with active := b } else r) ∈ (setReminderActive st i b).reminders := by
  simp only [setReminderActive, List.mem_map]
  refine ⟨r, hr, ?_⟩
  by_cases hid : r.id = i <;> simp [hid]

theorem setActive_pairwise {st : SysState} {i : Nat} {b : Bool}
    (h : st.reminders.Pairwise fun a c => a.id ≠ c.id) :
    (setReminderActive st i b).reminders.Pairwise fun a c => a.id ≠ c.id := by
  simp only [setReminderActive]
  rw [List.pairwise_map]
  refine h.imp_of_mem ?_
  intro a c _ _ hab
  by_cases ha : a.id = i <;> by_cases hc : c.id = i <;> simp [ha, hc] <;> omega

theorem setActive_wf {st : SysState} {i : Nat} {b : Bool}
    (h : ∀ r ∈ st.reminders, wfReminder r = true) :
    ∀ r ∈ (setReminderActive st i b).reminders, wfReminder r = true := by
  intro r' hr'
  obtain ⟨r, hr, he⟩ := setActive_row_elim hr'
  by_cases hid : r.id = i
  · rw [he, if_pos hid, wfReminder_setActive]; exact h r hr
  · rw [he, if_neg hid]; exact h r hr

/-! ### The scheduling decision on well-formed rows -/

theorem validHM_spec {s : String} (h : validHM s = true) :
    s ≠ "" ∧ ∃ a b : Int, parseHM s = some (a, b) ∧ mkTime? a b = some (a.toNat, b.toNat) := by
  unfold validHM at h
  cases hp : parseHM s with
  | none => rw [hp] at h; exact absurd h (by simp)
  | some p =>
    obtain ⟨a, b⟩ := p
    rw [hp] at h
    have hb := of_decide_eq_true h
    refine ⟨?_, a, b, rfl, ?_⟩
    · intro he
      rw [he, (by decide : parseHM "" = none)] at hp
      exact Option.noConfusion hp
    · unfold mkTime?
      rw [if_pos ⟨hb.1, hb.2.1, hb.2.2.1, hb.2.2.2⟩]

theorem parseDow_some {parts : List (List Char)}
    (h : (parts.all fun p =>
      match pyIntChars? p with
      | some v => decide (0 ≤ v ∧ v ≤ 6)
      | none => false) = true) :
    ∃ days, parseDowList parts = some days := by
  induction parts with
  | nil => exact ⟨[], rfl⟩
  | cons p rest ih =>
    rw [List.all_cons, Bool.and_eq_true] at h
    obtain ⟨days, hdays⟩ := ih h.2
    cases hv : pyIntChars? p with
    | none => rw [hv] at h; exact absurd h.1 (by simp)
    | some v =>
      rw [hv] at h
      have hb := of_decide_eq_true h.1
      exact ⟨v.toNat :: days, by simp [parseDowList, hv, if_pos hb, hdays]⟩

theorem schedDecision_wf (now : Nat) (r : Reminder) (hwf : wfReminder r = true) :
    schedDecision now r = .deactivate ∨ ∃ tr, schedDecision now r = .register tr := by
  unfold wfReminder at hwf
  unfold schedDecision
  by_cases h1 : r.rtype = "once"
  · rw [if_pos h1] at hwf ⊢
    obtain ⟨t, ht⟩ := Option.isSome_iff_exists.mp hwf
    by_cases hlt : t < now
    · left; simp [ht, hlt]
    · right
      refine ⟨Trigger.dateTrig t, ?_⟩
      simp [ht, hlt]
  · rw [if_neg h1] at hwf ⊢
    by_cases h2 : r.rtype = "daily"
    · rw [if_pos h2] at hwf
      obtain ⟨hne, a, b, hp, hmk⟩ := validHM_spec hwf
      cases htod : r.time_of_day with
      | none =>
        rw [htod, Option.getD_none, (by decide : parseHM "" = none)] at hp
        exact absurd hp (by simp)
      | some s =>
        rw [htod, Option.getD_some] at hp hne
        right
        refine ⟨Trigger.cronDaily a.toNat b.toNat, ?_⟩
        simp [htod, hne, hp, h2, hmk]
    · rw [if_neg h2] at hwf
      by_cases h3 : r.rtype = "weekly"
      · rw [if_pos h3] at hwf
        rw [Bool.and_eq_true] at hwf
        obtain ⟨hne, a, b, hp, hmk⟩ := validHM_spec hwf.1
        cases htod : r.time_of_day with
        | none =>
          rw [htod, Option.getD_none, (by decide : parseHM "" = none)] at hp
          exact absurd hp (by simp)
        | some s =>
          rw [htod, Option.getD_some] at hp hne
          cases hd : r.weekday with
          | none => rw [hd] at hwf; exact absurd hwf.2 (by simp)
          | some d =>
            rw [hd] at hwf
            have hd6 : d ≤ 6 := by simpa using hwf.2
            right
            refine ⟨Trigger.cronWeekly d a.toNat b.toNat, ?_⟩
            simp [htod, hne, hp, h1, h2, h3, hd, hd6, hmk]
      · rw [if_neg h3] at hwf
        by_cases h4 : r.rtype = "biweekly"
        · rw [if_pos h4] at hwf
          rw [Bool.and_eq_true] at hwf
          obtain ⟨hne, a, b, hp, hmk⟩ := validHM_spec hwf.1
          obtain ⟨d, hd⟩ := Option.isSome_iff_exists.mp hwf.2
          cases htod : r.time_of_day with
          | none =>
            rw [htod, Option.getD_none, (by decide : parseHM "" = none)] at hp
            exact absurd hp (by simp)
          | some s =>
            rw [htod, Option.getD_some] at hp hne
            right
            refine ⟨Trigger.intervalWeeks r.every_n_weeks
              (nextOccurrence now d (a.toNat * 60 + b.toNat)), ?_⟩
            simp [htod, hne, hp, h1, h2, h3, h4, hd, hmk]
        · rw [if_neg h4] at hwf
          by_cases h5 : r.rtype = "twice"
          · rw [if_pos h5] at hwf
            rw [Bool.and_eq_true] at hwf
            obtain ⟨hne, a, b, hp, hmk⟩ := validHM_spec hwf.1
            have hdow := hwf.2
            unfold validDow at hdow
            rw [Bool.and_eq_true] at hdow
            obtain ⟨days, hdays⟩ := parseDow_some hdow.2
            cases htod : r.time_of_day with
            | none =>
              rw [htod, Option.getD_none, (by decide : parseHM "" = none)] at hp
              exact absurd hp (by simp)
            | some s =>
              rw [htod, Option.getD_some] at hp hne
              have hparts :
                  ((splitOnChar ',' (r.weekdays.getD "").toList).filter fun p => p ≠ []) ≠ [] := by
                intro he
                rw [he] at hdow
                exact absurd hdow.1 (by simp)
              right
              refine ⟨Trigger.cronMulti days a.toNat b.toNat, ?_⟩
              simp [htod, hne, hp, h1, h2, h3, h4, h5, hmk]
              have hparts' : ¬ ∀ p ∈ splitOnChar ',' (r.weekdays.getD "").data, p = [] := by
                intro hall
                apply hparts
                rw [List.filter_eq_nil_iff]
                intro p hp'
                simp [hall p hp']
              rw [if_neg hparts']
              have hdays' : parseDowList (List.filter (fun p => !decide (p = []))
                  (splitOnChar ',' (r.weekdays.getD "").data)) = some days := by
                simpa using hdays
              rw [hdays']
          · rw [if_neg h5] at hwf
            exact absurd hwf (by simp)

/-! ### Shape and frame of `schedule_reminder` -/

theorem scheduleReminder_ok_shape {now : Nat} {st : SysState} {r : Reminder} {st' : SysState}
    (h : scheduleReminder now st r = .ok st') :
    st' = unscheduleReminder st r.id ∨
    st' = setReminderActive (unscheduleReminder st r.id) r.id false ∨
    ∃ tr, st' = addJobReplace (unscheduleReminder st r.id) (jobId r.id) tr := by
  unfold scheduleReminder at h
  cases hd : schedDecision now r <;> rw [hd] at h <;> simp only [Except.ok.injEq] at h
  · exact Or.inl h.symm
  · exact Or.inr (Or.inl h.symm)
  · exact Or.inr (Or.inr ⟨_, h.symm⟩)
  · exact absurd h (by simp)

theorem scheduleReminder_wf_ok (now : Nat) (st : SysState) (r : Reminder)
    (hwf : wfReminder r = true) :
    (scheduleReminder now st r =
        .ok (setReminderActive (unscheduleReminder st r.id) r.id false)) ∨
    ∃ tr, scheduleReminder now st r =
        .ok (addJobReplace (unscheduleReminder st r.id) (jobId r.id) tr) := by
  rcases schedDecision_wf now r hwf with hd | ⟨tr, hd⟩
  · left; unfold scheduleReminder; rw [hd]
  · right; exact ⟨tr, by unfold scheduleReminder; rw [hd]⟩

theorem scheduleReminder_frame {now : Nat} {st : SysState} {r : Reminder} {st' : SysState}
    (h : scheduleReminder now st r = .ok st') {i : Nat} (hi : i ≠ r.id) :
    jobCount st' i = jobCount st i := by
  rcases scheduleReminder_ok_shape h with he | he | ⟨tr, he⟩
  · rw [he]; exact jobCount_unschedule_other st hi
  · rw [he, jobCount_setActive]; exact jobCount_unschedule_other st hi
  · rw [he, jobCount_addJob_other _ _ hi]; exact jobCount_unschedule_other st hi

theorem scheduleReminder_rows {now : Nat} {st : SysState} {r : Reminder} {st' : SysState}
    (h : scheduleReminder now st r = .ok st') :
    st'.reminders = st.reminders ∨
    st'.reminders = (setReminderActive st r.id false).reminders := by
  rcases scheduleReminder_ok_shape h with he | he | ⟨tr, he⟩
  · rw [he]; exact Or.inl rfl
  · rw [he]; exact Or.inr rfl
  · rw [he]; exact Or.inl rfl

/-! ### Invariant preservation building blocks -/

theorem unschedule_rows (st : SysState) (j : Nat) :
    (unscheduleReminder st j).reminders = st.reminders := rfl

theorem addJob_rows (st : SysState) (k : String) (t : Trigger) :
    (addJobReplace st k t).reminders = st.reminders := rfl

theorem setActive_setActive (st : SysState) (i : Nat) (b c : Bool) :
    setReminderActive (setReminderActive st i b) i c = setReminderActive st i c := by
  simp only [setReminderActive, List.map_map]
  congr 1
  apply List.map_congr_left
  intro r _
  by_cases hid : r.id = i <;> simp [hid]

theorem setActive_unschedule_comm (st : SysState) (i j : Nat) (b : Bool) :
    setReminderActive (unscheduleReminder st j) i b =
      unscheduleReminder (setReminderActive st i b) j := rfl

theorem setActive_no_id {st : SysState} {i : Nat} {b : Bool} {i' : Nat} :
    (∀ r ∈ (setReminderActive st i b).reminders, r.id ≠ i') ↔
      (∀ r ∈ st.reminders, r.id ≠ i') := by
  constructor
  · intro h r hr
    have := h _ (setActive_row_intro (i := i) (b := b) hr)
    by_cases hid : r.id = i <;> simpa [hid] using this
  · intro h r' hr'
    obtain ⟨r, hr, he⟩ := setActive_row_elim hr'
    by_cases hid : r.id = i
    · rw [he, if_pos hid]; exact hid ▸ h r hr
    · rw [he, if_neg hid]; exact h r hr

theorem syswf_setActive {st : SysState} {i : Nat} {b : Bool} (h : SysWF st) :
    SysWF (setReminderActive st i b) :=
  ⟨setActive_pairwise h.1, setActive_wf h.2⟩

theorem inv_after_deact {st : SysState} {i : Nat}
    (hinv1 : ∀ r ∈ st.reminders, r.id ≠ i → jobCount st r.id = if r.active then 1 else 0)
    (hinv2 : ∀ i', (∀ r ∈ st.reminders, r.id ≠ i') → jobCount st i' = 0) :
    RemindersInv (unscheduleReminder (setReminderActive st i false) i) := by
  constructor
  · intro r' hr'
    rw [unschedule_rows] at hr'
    obtain ⟨r, hr, he⟩ := setActive_row_elim hr'
    by_cases hid : r.id = i
    · have hid' : r'.id = i := by rw [he, if_pos hid]; exact hid
      have hact : r'.active = false := by rw [he, if_pos hid]
      rw [hid', hact]
      simpa using jobCount_unschedule_same (setReminderActive st i false) i
    · have hid' : r'.id = r.id := by rw [he, if_neg hid]
      have hact : r'.active = r.active := by rw [he, if_neg hid]
      rw [hid', hact, jobCount_unschedule_other _ hid, jobCount_setActive]
      exact hinv1 r hr hid
  · intro i' hno
    rw [unschedule_rows] at hno
    by_cases hi' : i' = i
    · subst hi'; exact jobCount_unschedule_same _ _
    · rw [jobCount_unschedule_other _ hi', jobCount_setActive]
      exact hinv2 i' (setActive_no_id.mp hno)

theorem inv_after_register {st : SysState} {i : Nat} {tr : Trigger}
    (hinv1 : ∀ r ∈ st.reminders, r.id ≠ i → jobCount st r.id = if r.active then 1 else 0)
    (hinv2 : ∀ i', (∀ r ∈ st.reminders, r.id ≠ i') → jobCount st i' = 0)
    (hact : ∀ r ∈ st.reminders, r.id = i → r.active = true)
    (hex : ∃ r ∈ st.reminders, r.id = i) :
    RemindersInv (addJobReplace (unscheduleReminder st i) (jobId i) tr) := by
  constructor
  · intro r' hr'
    rw [addJob_rows, unschedule_rows] at hr'
    by_cases hid : r'.id = i
    · rw [hid, hact r' hr' hid]
      simpa using jobCount_addJob_same (unscheduleReminder st i) i tr
    · rw [jobCount_addJob_other _ _ hid, jobCount_unschedule_other _ hid]
      exact hinv1 r' hr' hid
  · intro i' hno
    rw [addJob_rows, unschedule_rows] at hno
    have hi' : i' ≠ i := by
      obtain ⟨r, hr, hid⟩ := hex
      intro he
      exact hno r hr (by rw [hid, he])
    rw [jobCount_addJob_other _ _ hi', jobCount_unschedule_other _ hi']
    exact hinv2 i' hno

theorem setActive_active_at {st : SysState} {i : Nat} {b : Bool} {r' : Reminder}
    (h : r' ∈ (setReminderActive st i b).reminders) (hid : r'.id = i) : r'.active = b := by
  obtain ⟨r, hr, he⟩ := setActive_row_elim h
  by_cases hri : r.id = i
  · rw [he, if_pos hri]
  · exfalso
    rw [he, if_neg hri] at hid
    exact hri hid

/-! ### Toggle preserves the invariant -/

theorem toggle_preserves (now : Nat) (st : SysState) (i : Nat)
    (hWF : SysWF st) (hInv : RemindersInv st) :
    ∃ st', toggleReminder now st i = .ok st' ∧ SysWF st' ∧ RemindersInv st' := by
  unfold toggleReminder
  cases hget : getReminder st i with
  | none => exact ⟨st, rfl, hWF, hInv⟩
  | some r =>
    obtain ⟨hrmem, hrid⟩ := getReminder_eq_some hget
    by_cases hact : r.active = true
    · refine ⟨unscheduleReminder (setReminderActive st i false) i, ?_, ?_, ?_⟩
      · simp [hact]
      · exact syswf_setActive hWF
      · exact inv_after_deact (fun r' hr' _ => hInv.1 r' hr') hInv.2
    · have hwfr : wfReminder r = true := hWF.2 r hrmem
      have hinv1' : ∀ r' ∈ (setReminderActive st i true).reminders, r'.id ≠ i →
          jobCount (setReminderActive st i true) r'.id = if r'.active then 1 else 0 := by
        intro r' hr' hne
        obtain ⟨r₀, hr₀, he⟩ := setActive_row_elim hr'
        by_cases hri : r₀.id = i
        · exfalso; rw [he, if_pos hri] at hne; exact hne hri
        · rw [he, if_neg hri] at hne ⊢
          rw [jobCount_setActive]
          exact hInv.1 r₀ hr₀
      have hinv2' : ∀ i', (∀ r' ∈ (setReminderActive st i true).reminders, r'.id ≠ i') →
          jobCount (setReminderActive st i true) i' = 0 := by
        intro i' hno
        rw [jobCount_setActive]
        exact hInv.2 i' (setActive_no_id.mp hno)
      rcases scheduleReminder_wf_ok now (setReminderActive st i true) r hwfr with hs | ⟨tr, hs⟩
      · refine ⟨setReminderActive (unscheduleReminder (setReminderActive st i true) r.id)
            r.id false, ?_, ?_, ?_⟩
        · simp only [Bool.not_eq_true] at hact
          simpa [hact] using hs
        · rw [hrid, setActive_unschedule_comm, setActive_setActive]
          exact syswf_setActive hWF
        · rw [hrid, setActive_unschedule_comm, setActive_setActive]
          exact inv_after_deact (fun r' hr' _ => hInv.1 r' hr') hInv.2
      · refine ⟨addJobReplace (unscheduleReminder (setReminderActive st i true) r.id)
            (jobId r.id) tr, ?_, ?_, ?_⟩
        · simp only [Bool.not_eq_true] at hact
          simpa [hact] using hs
        · exact syswf_setActive hWF
        · rw [hrid]
          refine inv_after_register hinv1' hinv2' ?_ ?_
          · intro r' hr' hid'
            exact setActive_active_at hr' hid'
          · refine ⟨_, setActive_row_intro (i := i) (b := true) hrmem, ?_⟩
            by_cases hri : r.id = i
            · rw [if_pos hri]; exact hri
            · exact absurd hrid hri

/-! ### Delete preserves the invariant -/

theorem delete_preserves (st : SysState) (i : Nat)
    (hWF : SysWF st) (hInv : RemindersInv st) :
    SysWF (deleteAndUnschedule st i) ∧ RemindersInv (deleteAndUnschedule st i) := by
  refine ⟨⟨?_, ?_⟩, ?_, ?_⟩
  · exact List.Pairwise.sublist (List.filter_sublist _) hWF.1
  · intro r hr
    exact hWF.2 r (List.mem_of_mem_filter hr)
  · intro r' hr'
    have hmem := List.mem_of_mem_filter hr'
    have hne : r'.id ≠ i := by simpa using List.of_mem_filter hr'
    have : jobCount (deleteAndUnschedule st i) r'.id = jobCount st r'.id := by
      unfold deleteAndUnschedule
      rw [jobCount_unschedule_other _ hne, jobCount_delete]
    rw [this]
    exact hInv.1 r' hmem
  · intro i' hno
    by_cases hi' : i' = i
    · subst hi'
      exact jobCount_unschedule_same _ _
    · have : jobCount (deleteAndUnschedule st i) i' = jobCount st i' := by
        unfold deleteAndUnschedule
        rw [jobCount_unschedule_other _ hi', jobCount_delete]
      rw [this]
      apply hInv.2
      intro r hr
      by_cases hri : r.id = i
      · rw [hri]; exact fun he => hi' he.symm
      · exact hno r (List.mem_filter.mpr ⟨hr, by simpa using hri⟩)

/-! ### Create preserves the invariant -/

theorem le_foldr_max : ∀ (l : List Reminder), ∀ r ∈ l,
    r.id ≤ l.foldr (fun r acc => max r.id acc) 0 := by
  intro l
  induction l with
  | nil => intro r hr; cases hr
  | cons x xs ih =>
    intro r hr
    rcases List.mem_cons.mp hr with rfl | hr
    · exact le_max_left _ _
    · exact le_trans (ih r hr) (le_max_right _ _)

theorem freshId_gt {st : SysState} : ∀ r ∈ st.reminders, r.id < freshId st := by
  intro r hr
  have := le_foldr_max st.reminders r hr
  unfold freshId
  omega

theorem wfReminder_override (r0 : Reminder) (i : Nat) :
    wfReminder { r0 with id := i, active := true } = wfReminder r0 := by
  cases r0; rfl

theorem getReminder_insert (st : SysState) (r0 : Reminder) :
    getReminder (insertReminder st r0) (freshId st) =
      some { r0 with id := freshId st, active := true } := by
  unfold getReminder insertReminder
  rw [List.find?_append]
  have h1 : st.reminders.find? (fun r => r.id == freshId st) = none := by
    rw [List.find?_eq_none]
    intro r hr
    simpa using Nat.ne_of_lt (freshId_gt r hr)
  rw [h1]
  simp

theorem syswf_insert {st : SysState} {r0 : Reminder}
    (hWF : SysWF st) (hwf0 : wfReminder r0 = true) : SysWF (insertReminder st r0) := by
  constructor
  · show List.Pairwise (fun a b => a.id ≠ b.id)
      (st.reminders ++ [{ r0 with id := freshId st, active := true }])
    rw [List.pairwise_append]
    refine ⟨hWF.1, by simp, ?_⟩
    intro a ha b hb
    simp only [List.mem_singleton] at hb
    subst hb
    exact Nat.ne_of_lt (freshId_gt a ha)
  · intro r hr
    rcases List.mem_append.mp hr with h | h
    · exact hWF.2 r h
    · simp only [List.mem_singleton] at h
      subst h
      rw [wfReminder_override]
      exact hwf0

theorem create_preserves (now : Nat) (st : SysState) (r0 : Reminder)
    (hWF : SysWF st) (hInv : RemindersInv st) (hwf0 : wfReminder r0 = true) :
    ∃ st', createReminder now st r0 = .ok st' ∧ SysWF st' ∧ RemindersInv st' := by
  have hwfN : wfReminder { r0 with id := freshId st, active := true } = true := by
    rw [wfReminder_override]; exact hwf0
  have hWF1 : SysWF (insertReminder st r0) := syswf_insert hWF hwf0
  have hjobs : ∀ i', jobCount (insertReminder st r0) i' = jobCount st i' := fun _ => rfl
  have hinv1' : ∀ r' ∈ (insertReminder st r0).reminders, r'.id ≠ freshId st →
      jobCount (insertReminder st r0) r'.id = if r'.active then 1 else 0 := by
    intro r' hr' hne
    rcases List.mem_append.mp hr' with h | h
    · rw [hjobs]; exact hInv.1 r' h
    · simp only [List.mem_singleton] at h
      exact absurd (by rw [h]) hne
  have hinv2' : ∀ i', (∀ r' ∈ (insertReminder st r0).reminders, r'.id ≠ i') →
      jobCount (insertReminder st r0) i' = 0 := by
    intro i' hno
    rw [hjobs]
    exact hInv.2 i' fun r hr => hno r (List.mem_append.mpr (Or.inl hr))
  unfold createReminder
  rw [getReminder_insert]
  rcases scheduleReminder_wf_ok now (insertReminder st r0)
      { r0 with id := freshId st, active := true } hwfN with hs | ⟨tr, hs⟩
  · refine ⟨_, hs, ?_, ?_⟩
    · exact syswf_setActive hWF1
    · exact inv_after_deact hinv1' hinv2'
  · refine ⟨_, hs, hWF1, ?_⟩
    refine inv_after_register hinv1' hinv2' ?_ ?_
    · intro r' hr' hid'
      rcases List.mem_append.mp hr' with h | h
      · exact absurd hid' (Nat.ne_of_lt (freshId_gt r' h))
      · simp only [List.mem_singleton] at h
        rw [h]
    · exact ⟨_, List.mem_append.mpr (Or.inr (List.mem_singleton.mpr rfl)), rfl⟩

/-! ### Restoration establishes the invariant -/

theorem restore_fold_inv (now : Nat) :
    ∀ (L : List Reminder) (s : SysState),
      SysWF s →
      (∀ rL ∈ L, wfReminder rL = true) →
      L.Pairwise (fun a b => a.id ≠ b.id) →
      (∀ r ∈ s.reminders, (∀ rL ∈ L, rL.id ≠ r.id) →
        jobCount s r.id = if r.active then 1 else 0) →
      (∀ rL ∈ L, (∃ row ∈ s.reminders, row.id = rL.id ∧ row.active = true) ∧
        jobCount s rL.id = 0) →
      (∀ i, (∀ row ∈ s.reminders, row.id ≠ i) → jobCount s i = 0) →
      ∃ s', L.foldlM (fun s r => scheduleReminder now s r) s = .ok s' ∧
        SysWF s' ∧ RemindersInv s' := by
  intro L
  induction L with
  | nil =>
    intro s hWF _ _ hsettled _ hno
    exact ⟨s, rfl, hWF, fun r hr => hsettled r hr (by simp), hno⟩
  | cons rL L' ih =>
    intro s hWF hLwf hLpw hsettled hpend hno
    have hwfr : wfReminder rL = true := hLwf rL (by simp)
    obtain ⟨⟨row, hrow, hrowid, hrowact⟩, hcount0⟩ := hpend rL (by simp)
    have hLpw' := (List.pairwise_cons.mp hLpw).2
    have hLhead := (List.pairwise_cons.mp hLpw).1
    rcases scheduleReminder_wf_ok now s rL hwfr with hs | ⟨tr, hs⟩
    · -- the once-in-the-past case: the row is deactivated and stays unscheduled
      obtain ⟨s', hfold, hswf, hsinv⟩ := ih
        (setReminderActive (unscheduleReminder s rL.id) rL.id false)
        (syswf_setActive hWF)
        (fun r hr => hLwf r (List.mem_cons_of_mem _ hr))
        hLpw'
        (by
          intro r hr hnin
          obtain ⟨r₀, hr₀, he⟩ := setActive_row_elim hr
          rw [unschedule_rows] at hr₀
          by_cases hri : r₀.id = rL.id
          · have hid' : r.id = rL.id := by rw [he, if_pos hri]; exact hri
            have hact' : r.active = false := by rw [he, if_pos hri]
            rw [hid', hact']
            simpa using jobCount_unschedule_same s rL.id
          · have hid' : r.id = r₀.id := by rw [he, if_neg hri]
            have hact' : r.active = r₀.active := by rw [he, if_neg hri]
            rw [hid', hact', jobCount_setActive, jobCount_unschedule_other _ hri]
            refine hsettled r₀ hr₀ ?_
            intro rL' hrL'
            rcases List.mem_cons.mp hrL' with rfl | hmem
            · exact fun he' => hri he'.symm
            · have := hnin rL' hmem
              rw [hid'] at this
              exact this
          )
        (by
          intro rL' hrL'
          obtain ⟨⟨row', hrow', hrowid', hrowact'⟩, hc0⟩ :=
            hpend rL' (List.mem_cons_of_mem _ hrL')
          have hne : row'.id ≠ rL.id := by
            rw [hrowid']
            exact Ne.symm (hLhead rL' hrL')
          constructor
          · refine ⟨row', ?_, hrowid', hrowact'⟩
            have := @setActive_row_intro (unscheduleReminder s rL.id) rL.id false row' hrow'
            rwa [if_neg hne] at this
          · have hne2 : rL'.id ≠ rL.id := Ne.symm (hLhead rL' hrL')
            rw [jobCount_setActive, jobCount_unschedule_other _ hne2]
            exact hc0
          )
        (by
          intro i hnoi
          by_cases hi : i = rL.id
          · subst hi
            exact jobCount_unschedule_same _ _
          · rw [jobCount_setActive, jobCount_unschedule_other _ hi]
            exact hno i (setActive_no_id.mp hnoi)
          )
      refine ⟨s', ?_, hswf, hsinv⟩
      rw [List.foldlM_cons, hs]
      simpa using hfold
    · -- the trigger-registered case
      obtain ⟨s', hfold, hswf, hsinv⟩ := ih
        (addJobReplace (unscheduleReminder s rL.id) (jobId rL.id) tr)
        hWF
        (fun r hr => hLwf r (List.mem_cons_of_mem _ hr))
        hLpw'
        (by
          intro r hr hnin
          rw [addJob_rows, unschedule_rows] at hr
          by_cases hri : r.id = rL.id
          · have hr_eq : r = row := unique_id hWF.1 hr hrow (by rw [hri, hrowid])
            rw [hri, hr_eq, hrowact]
            simpa using jobCount_addJob_same (unscheduleReminder s rL.id) rL.id tr
          · rw [jobCount_addJob_other _ _ hri, jobCount_unschedule_other _ hri]
            refine hsettled r hr ?_
            intro rL' hrL'
            rcases List.mem_cons.mp hrL' with rfl | hmem
            · exact fun he' => hri he'.symm
            · exact hnin rL' hmem
          )
        (by
          intro rL' hrL'
          obtain ⟨⟨row', hrow', hrowid', hrowact'⟩, hc0⟩ :=
            hpend rL' (List.mem_cons_of_mem _ hrL')
          have hne2 : rL'.id ≠ rL.id := Ne.symm (hLhead rL' hrL')
          refine ⟨⟨row', by rw [addJob_rows, unschedule_rows]; exact hrow', hrowid', hrowact'⟩, ?_⟩
          rw [jobCount_addJob_other _ _ hne2, jobCount_unschedule_other _ hne2]
          exact hc0
          )
        (by
          intro i hnoi
          rw [addJob_rows, unschedule_rows] at hnoi
          have hi : i ≠ rL.id := by
            intro he
            exact hnoi row hrow (by rw [hrowid, he])
          rw [jobCount_addJob_other _ _ hi, jobCount_unschedule_other _ hi]
          exact hno i hnoi
          )
      refine ⟨s', ?_, hswf, hsinv⟩
      rw [List.foldlM_cons, hs]
      simpa using hfold

theorem restore_establishes (now : Nat) (st : SysState)
    (hWF : SysWF st) (hjobs : st.jobs = []) :
    ∃ st', restoreReminders now st = .ok st' ∧ SysWF st' ∧ RemindersInv st' := by
  unfold restoreReminders
  apply restore_fold_inv now (getActiveReminders st) st hWF
  · intro rL hrL
    exact hWF.2 rL (List.mem_of_mem_filter hrL)
  · exact List.Pairwise.sublist (List.filter_sublist _) hWF.1
  · intro r hr hnin
    have h0 : jobCount st r.id = 0 := by simp [jobCount, hjobs]
    rw [h0]
    by_cases ha : r.active = true
    · exact absurd rfl (hnin r (List.mem_filter.mpr ⟨hr, by simp [ha]⟩))
    · simp only [Bool.not_eq_true] at ha
      rw [ha]
      simp
  · intro rL hrL
    refine ⟨⟨rL, List.mem_of_mem_filter hrL, rfl, ?_⟩, ?_⟩
    · simpa using List.of_mem_filter hrL
    · simp [jobCount, hjobs]
  · intro i _
    simp [jobCount, hjobs]

/-- Scheduling a list of reminders touches no job id outside the list. -/
theorem restore_fold_frame (now : Nat) :
    ∀ (L : List Reminder) (s s' : SysState),
      L.foldlM (fun s r => scheduleReminder now s r) s = .ok s' →
      ∀ i, (∀ rL ∈ L, rL.id ≠ i) → jobCount s' i = jobCount s i := by
  intro L
  induction L with
  | nil =>
    intro s s' h i _
    have h' : (Except.ok s : Except String SysState) = .ok s' := h
    cases h'
    rfl
  | cons rL L' ih =>
    intro s s' h i hni
    rw [List.foldlM_cons] at h
    cases hs : scheduleReminder now s rL with
    | error e =>
      rw [hs] at h
      exact Except.noConfusion (h : (Except.error e : Except String SysState) = .ok s')
    | ok s₁ =>
      rw [hs] at h
      have h2 : L'.foldlM (fun s r => scheduleReminder now s r) s₁ = .ok s' := h
      rw [ih s₁ s' h2 i fun rL' h' => hni rL' (List.mem_cons_of_mem _ h')]
      exact scheduleReminder_frame hs (Ne.symm (hni rL (List.mem_cons_self _ _)))

/-! ### Broadcast helper lemmas -/

theorem runAttempts_length (cfg : BroadcastConfig) :
    ∀ l : List SendResult, (runAttempts cfg l).1.length ≤ l.length := by
  intro l
  induction l with
  | nil => simp [runAttempts]
  | cons r rest ih =>
    cases r <;> simp [runAttempts] <;> omega

theorem runAttempts_unknown (cfg : BroadcastConfig) :
    ∀ n : Nat, runAttempts cfg (List.replicate n .unknownErr) =
      (List.replicate n (.sleptDelay cfg.retryDelay), .exhausted) := by
  intro n
  induction n with
  | zero => rfl
  | succ k ih => simp [List.replicate_succ, runAttempts, ih]

theorem map_range_const {α : Type} (f : Nat → α) (x : α) :
    ∀ n : Nat, (∀ i, i < n → f i = x) → (List.range n).map f = List.replicate n x := by
  intro n
  induction n with
  | zero => intro _; rfl
  | succ k ih =>
    intro h
    rw [List.range_succ, List.map_append, ih (fun i hi => h i (by omega)),
      List.replicate_succ' k x]
    simp [h k (by omega)]

/-! ## Claim theorems -/

/-- C1, counterexample: the claim says rate-limit waits never consume the
attempt budget, so no number of consecutive rate-limit events can abandon a
chat.  With the default `broadcast_retry_count = 3`, a chat whose every send
is rate-limited (`retry_after = 5`) is abandoned after exactly three physical
attempts, sleeping 5.5 s each time: the `except TelegramRetryAfter` arm falls
through to the next `for` iteration, advancing `attempt`. -/
theorem c1_counterexample :
    dispatchChat ⟨3, 2⟩ (fun _ => .retryAfter 5) =
      ([.sleptRate (5 + 1/2), .sleptRate (5 + 1/2), .sleptRate (5 + 1/2)],
        .exhausted) := rfl

/-- C1, amended: on a rate-limit error the dispatcher sleeps
`retry_after + 0.5` seconds and retries, but the retry consumes one attempt
from the `broadcast_retry_count` budget like any other failure:
`broadcast_retry_count` consecutive rate-limit events abandon the chat (after
sleeping on each), while a chat that succeeds within the budget — e.g. two
rate-limits then success under the default budget of 3 — is delivered after
waiting `retry_after + 0.5` twice. -/
theorem c1_rate_limit_consumes_budget :
    (∀ (cfg : BroadcastConfig) (d : ℚ) (rest : List SendResult),
      runAttempts cfg (.retryAfter d :: rest) =
        (.sleptRate (d + 1/2) :: (runAttempts cfg rest).1, (runAttempts cfg rest).2)) ∧
    (∀ (cfg : BroadcastConfig) (n : Nat) (d : ℚ),
      runAttempts cfg (List.replicate n (.retryAfter d)) =
        (List.replicate n (.sleptRate (d + 1/2)), .exhausted)) ∧
    (∀ rd d : ℚ,
      dispatchChat ⟨3, rd⟩ (fun i => if i < 2 then .retryAfter d else .ok) =
        ([.sleptRate (d + 1/2), .sleptRate (d + 1/2), .sent], .delivered)) := by
  refine ⟨fun cfg d rest => rfl, fun cfg n d => ?_, fun rd d => rfl⟩
  induction n with
  | zero => rfl
  | succ k ih => simp [List.replicate_succ, runAttempts, ih]

/-- C8: a `TelegramForbiddenError` marks the chat inactive at once, the chat
gets no further physical send in the run (its trace is the single
mark-inactive event), and the outer loop still dispatches every other chat. -/
theorem c8_forbidden_marks_inactive (cfg : BroadcastConfig) (h : 1 ≤ cfg.retryCount)
    (oracle : Nat → SendResult) (h0 : oracle 0 = .forbidden)
    (cid : Int) (pre post : List (Int × (Nat → SendResult))) :
    dispatchChat cfg oracle = ([.markedInactive], .forbiddenInactive) ∧
    broadcastRun cfg (pre ++ (cid, oracle) :: post) =
      broadcastRun cfg pre ++
        (cid, ([.markedInactive], .forbiddenInactive)) :: broadcastRun cfg post := by
  have hd : dispatchChat cfg oracle = ([.markedInactive], .forbiddenInactive) := by
    obtain ⟨m, hm⟩ : ∃ m, cfg.retryCount = m + 1 := ⟨cfg.retryCount - 1, by omega⟩
    unfold dispatchChat
    rw [hm, List.range_succ_eq_map, List.map_cons, h0]
    rfl
  refine ⟨hd, ?_⟩
  unfold broadcastRun
  rw [List.map_append, List.map_cons]
  rw [show ((cid, oracle).1, dispatchChat cfg (cid, oracle).2) =
    (cid, ([ChatEvent.markedInactive], ChatOutcome.forbiddenInactive)) by rw [← hd]]

theorem c8_witness :
    1 ≤ (3 : Nat) ∧ (fun _ : Nat => SendResult.forbidden) 0 = SendResult.forbidden ∧
    dispatchChat ⟨3, 2⟩ (fun _ => .forbidden) = ([.markedInactive], .forbiddenInactive) :=
  ⟨by decide, rfl,
    (c8_forbidden_marks_inactive ⟨3, 2⟩ (by decide) (fun _ => .forbidden) rfl 0 [] []).1⟩

/-- C9: under unknown/transient failures the dispatcher sleeps the configured
fixed delay and retries, one attempt consumed per failure; a chat that fails
every attempt is abandoned after exactly `broadcast_retry_count` sleeps; no
chat ever gets more than `broadcast_retry_count` physical sends; and the run
goes on to process every remaining chat (the whole run is a total function —
no delivery error escapes the per-chat loop). -/
theorem c9_transient_bounded_retry (cfg : BroadcastConfig) (oracle : Nat → SendResult)
    (hall : ∀ i, i < cfg.retryCount → oracle i = .unknownErr)
    (cid : Int) (pre post : List (Int × (Nat → SendResult))) :
    dispatchChat cfg oracle =
      (List.replicate cfg.retryCount (.sleptDelay cfg.retryDelay), .exhausted) ∧
    (∀ oracle2 : Nat → SendResult, (dispatchChat cfg oracle2).1.length ≤ cfg.retryCount) ∧
    broadcastRun cfg (pre ++ (cid, oracle) :: post) =
      broadcastRun cfg pre ++
        (cid, (List.replicate cfg.retryCount (.sleptDelay cfg.retryDelay), .exhausted)) ::
          broadcastRun cfg post := by
  have hd : dispatchChat cfg oracle =
      (List.replicate cfg.retryCount (.sleptDelay cfg.retryDelay), .exhausted) := by
    unfold dispatchChat
    rw [map_range_const oracle .unknownErr cfg.retryCount hall, runAttempts_unknown]
  refine ⟨hd, ?_, ?_⟩
  · intro oracle2
    calc (dispatchChat cfg oracle2).1.length
        ≤ ((List.range cfg.retryCount).map oracle2).length := runAttempts_length cfg _
      _ = cfg.retryCount := by simp
  · unfold broadcastRun
    rw [List.map_append, List.map_cons]
    rw [show ((cid, oracle).1, dispatchChat cfg (cid, oracle).2) =
      (cid, (List.replicate cfg.retryCount (ChatEvent.sleptDelay cfg.retryDelay),
        ChatOutcome.exhausted)) by rw [← hd]]

/-- C7: the eligibility generator yields, from the store's active chats,
exactly the chats of the claim's description — not in the approved allow-list
(static union stored), not an admin's private chat (static admin ids union
stored ones), and, when `ignore_inactive` holds and the chat is a group or
supergroup, bearing no INACTIVE marker (case-insensitive, markup stripped) in
the cached title nor in the title obtained by the one live lookup, with a
failed lookup leaving the cached (eligible) verdict in force. -/
theorem c7_eligibility_filter (cfg : EligCfg) (store : ChatStore) (ii : Bool)
    (lookup : Int → TitleLookup) (chat : ChatRec) :
    chat ∈ eligibleChats cfg store ii lookup ↔
      chat ∈ store.activeChats ∧ eligibleSpecPred cfg store ii lookup chat := by
  rw [eligibleChats, List.mem_filter]
  refine and_congr_right fun _ => ?_
  show chatPasses cfg store ii lookup chat = true ↔ _
  unfold chatPasses eligibleSpecPred
  by_cases hap : chat.chat_id ∈ cfg.approvedChatIds ++ store.approvedChatIdsStored
  · simp [hap]
  · by_cases hpriv : chat.ctype = "private" ∧
        chat.chat_id ∈ cfg.adminIds ++ store.additionalAdminIds
    · simp [hap, hpriv.1, hpriv.2]
    · by_cases hgrp : ii = true ∧ (chat.ctype = "group" ∨ chat.ctype = "supergroup")
      · by_cases hcache : hasInactiveMarker (sanitizeTitle chat.title) = true
        · simp [hap, hpriv, hgrp.1, hgrp.2, hcache]
        · cases hlk : lookup chat.chat_id with
          | failure => simp [hap, hpriv, hgrp.1, hgrp.2, hcache, hlk]; tauto
          | found t => simp [hap, hpriv, hgrp.1, hgrp.2, hcache, hlk]; tauto
          | foundNoTitleAttr => simp [hap, hpriv, hgrp.1, hgrp.2, hcache, hlk]; tauto
      · simp [hap, hpriv, hgrp]
        tauto

theorem c9_witness :
    (∀ i, i < 3 → (fun _ : Nat => SendResult.unknownErr) i = SendResult.unknownErr) ∧
    dispatchChat ⟨3, 2⟩ (fun _ => .unknownErr) =
      (List.replicate 3 (.sleptDelay 2), .exhausted) :=
  ⟨fun _ _ => rfl,
    (c9_transient_bounded_retry ⟨3, 2⟩ (fun _ => .unknownErr) (fun _ _ => rfl) 0 [] []).1⟩

/-- C2: for a well-formed system the job invariant — an existing active
reminder owns exactly one `reminder_<id>` job, an inactive or deleted one owns
none — holds after each of the four mutations: create (`_finalize_reminder`),
toggle (`reminders_toggle`), delete (`reminders_delete`), and the startup
restoration (`restore_reminders`, run against a fresh scheduler). -/
theorem c2_reminder_job_invariant (now : Nat) :
    (∀ st r0, SysWF st → RemindersInv st → wfReminder r0 = true →
      ∃ st', createReminder now st r0 = .ok st' ∧ SysWF st' ∧ RemindersInv st') ∧
    (∀ st i, SysWF st → RemindersInv st →
      ∃ st', toggleReminder now st i = .ok st' ∧ SysWF st' ∧ RemindersInv st') ∧
    (∀ st i, SysWF st → RemindersInv st →
      SysWF (deleteAndUnschedule st i) ∧ RemindersInv (deleteAndUnschedule st i)) ∧
    (∀ st, SysWF st → st.jobs = [] →
      ∃ st', restoreReminders now st = .ok st' ∧ SysWF st' ∧ RemindersInv st') :=
  ⟨fun st r0 h1 h2 h3 => create_preserves now st r0 h1 h2 h3,
   fun st i h1 h2 => toggle_preserves now st i h1 h2,
   fun st i h1 h2 => delete_preserves st i h1 h2,
   fun st h1 h2 => restore_establishes now st h1 h2⟩

theorem c2_witness :
    (SysWF emptySys ∧ RemindersInv emptySys ∧ wfReminder sampleDaily = true) ∧
    (∃ st', createReminder 0 emptySys sampleDaily = .ok st' ∧ SysWF st' ∧ RemindersInv st') ∧
    (∃ st', restoreReminders 0 emptySys = .ok st' ∧ SysWF st' ∧ RemindersInv st') := by
  have hwf : SysWF emptySys := ⟨List.Pairwise.nil, fun r hr => absurd hr (List.not_mem_nil r)⟩
  have hinv : RemindersInv emptySys :=
    ⟨fun r hr => absurd hr (List.not_mem_nil r), fun i _ => rfl⟩
  exact ⟨⟨hwf, hinv, by decide⟩,
    (c2_reminder_job_invariant 0).1 emptySys sampleDaily hwf hinv (by decide),
    (c2_reminder_job_invariant 0).2.2.2 emptySys hwf rfl⟩

/-- C3, counterexample: a daily reminder whose `time_of_day` is the non-empty
unparseable string `"soon"` does not make registration a silent no-op —
`map(int, time_of_day.split(":"))` raises `ValueError`, which propagates out
of `schedule_reminder`. -/
theorem c3_counterexample :
    scheduleReminder 0 ⟨[badTimeReminder], []⟩ badTimeReminder =
      .error "ValueError: invalid literal for int()" := rfl

/-- C3, amended: for daily/weekly/biweekly/twice reminders, a missing (NULL)
or empty `time_of_day` makes registration a no-op (beyond the initial
unschedule) with no error; a non-empty `time_of_day` that is not two
colon-separated integers raises `ValueError` instead. -/
theorem c3_missing_time_noop (now : Nat) (st : SysState) (r : Reminder)
    (hty : r.rtype = "daily" ∨ r.rtype = "weekly" ∨ r.rtype = "biweekly" ∨ r.rtype = "twice") :
    ((r.time_of_day = none ∨ r.time_of_day = some "") →
      scheduleReminder now st r = .ok (unscheduleReminder st r.id)) ∧
    (∀ s, r.time_of_day = some s → s ≠ "" → parseHM s = none →
      scheduleReminder now st r = .error "ValueError: invalid literal for int()") := by
  have honce : ¬r.rtype = "once" := by
    rcases hty with h | h | h | h <;> rw [h] <;> decide
  constructor
  · intro htod
    unfold scheduleReminder schedDecision
    rcases htod with h | h <;> simp [honce, h]
  · intro s hs hne hp
    unfold scheduleReminder schedDecision
    simp [honce, hs, hne, hp]

theorem c3_witness :
    (noTimeReminder.rtype = "daily" ∨ noTimeReminder.rtype = "weekly" ∨
      noTimeReminder.rtype = "biweekly" ∨ noTimeReminder.rtype = "twice") ∧
    scheduleReminder 0 ⟨[noTimeReminder], []⟩ noTimeReminder =
      .ok (unscheduleReminder ⟨[noTimeReminder], []⟩ noTimeReminder.id) :=
  ⟨Or.inl rfl,
    (c3_missing_time_noop 0 ⟨[noTimeReminder], []⟩ noTimeReminder (Or.inl rfl)).1 (Or.inl rfl)⟩

/-- C4: `_next_occurrence` returns the earliest instant strictly after now
with the target weekday and time of day — in particular when this week's
occurrence is at or before now (including exactly now) it lands one week
later — and the biweekly branch of `schedule_reminder` registers an
`IntervalTrigger` repeating every `every_n_weeks` (= 2) weeks from that
anchor. -/
theorem c4_biweekly_anchor (now tw tm : Nat) (htw : tw < 7) (htm : tm < 1440) :
    (now < nextOccurrence now tw tm ∧
     nextOccurrence now tw tm % 1440 = tm ∧
     (nextOccurrence now tw tm / 1440) % 7 = tw ∧
     (∀ t, now < t → t % 1440 = tm → (t / 1440) % 7 = tw → nextOccurrence now tw tm ≤ t)) ∧
    (∀ (st : SysState) (r : Reminder) (s : String) (a b : Int),
      r.rtype = "biweekly" → r.weekday = some tw → r.every_n_weeks = 2 →
      r.time_of_day = some s → s ≠ "" →
      parseHM s = some (a, b) → mkTime? a b = some (a.toNat, b.toNat) →
      a.toNat * 60 + b.toNat = tm →
      scheduleReminder now st r = .ok (addJobReplace (unscheduleReminder st r.id) (jobId r.id)
        (.intervalWeeks 2 (nextOccurrence now tw tm)))) := by
  constructor
  · unfold nextOccurrence
    refine ⟨?_, ?_, ?_, ?_⟩ <;> simp only []
    · split <;> omega
    · split <;> omega
    · split <;> omega
    · intro t ht htm' htw'
      split <;> omega
  · intro st r s a b h1 h2 hweeks h3 h4 h5 h6 h7
    have honce : ¬r.rtype = "once" := by rw [h1]; decide
    have hdaily : ¬r.rtype = "daily" := by rw [h1]; decide
    have hweekly : ¬r.rtype = "weekly" := by rw [h1]; decide
    unfold scheduleReminder schedDecision
    simp [honce, hdaily, hweekly, h1, h2, h3, h4, h5, h6, hweeks, h7]

theorem c4_witness :
    ((0 : Nat) < 7 ∧ (540 : Nat) < 1440) ∧
    nextOccurrence 3480 0 540 = 10620 ∧
    3480 < nextOccurrence 3480 0 540 ∧
    scheduleReminder 3480 ⟨[sampleBiweekly], []⟩ sampleBiweekly =
      .ok (addJobReplace (unscheduleReminder ⟨[sampleBiweekly], []⟩ sampleBiweekly.id)
        (jobId sampleBiweekly.id) (.intervalWeeks 2 (nextOccurrence 3480 0 540))) := by
  have h := c4_biweekly_anchor 3480 0 540 (by decide) (by decide)
  exact ⟨⟨by decide, by decide⟩, by decide, h.1.1,
    h.2 ⟨[sampleBiweekly], []⟩ sampleBiweekly "09:00" 9 0 rfl rfl rfl rfl (by decide)
      (by decide) (by decide) (by decide)⟩

/-- C5: when an active `once` reminder fires, the broadcast dispatch is the
first action and the deactivation and job removal come only afterwards; in
the resulting state the row is inactive with no `reminder_<id>` job, it is
absent from the active list, and any subsequent restoration pass (which loads
only active rows) leaves that id unscheduled. -/
theorem c5_once_fire_order (st : SysState) (r : Reminder) (now : Nat)
    (hget : getReminder st r.id = some r) (hact : r.active = true) (hty : r.rtype = "once") :
    (fireReminder st r.id).2 =
      [.broadcastMsg r.text r.media_path, .storeSetActive r.id false, .schedRemoveJob r.id] ∧
    (∀ r' ∈ (fireReminder st r.id).1.reminders, r'.id = r.id → r'.active = false) ∧
    jobCount (fireReminder st r.id).1 r.id = 0 ∧
    (∀ rr ∈ getActiveReminders (fireReminder st r.id).1, rr.id ≠ r.id) ∧
    (∀ st'', restoreReminders now (fireReminder st r.id).1 = .ok st'' →
      jobCount st'' r.id = 0) := by
  have hfr : fireReminder st r.id =
      (unscheduleReminder (setReminderActive st r.id false) r.id,
       [.broadcastMsg r.text r.media_path, .storeSetActive r.id false,
        .schedRemoveJob r.id]) := by
    unfold fireReminder
    rw [hget]
    simp [hact, hty]
  rw [hfr]
  have hrows : ∀ r' ∈ (unscheduleReminder (setReminderActive st r.id false) r.id).reminders,
      r'.id = r.id → r'.active = false := by
    intro r' hr' hid
    rw [unschedule_rows] at hr'
    exact setActive_active_at hr' hid
  have hactive : ∀ rr ∈ getActiveReminders
      (unscheduleReminder (setReminderActive st r.id false) r.id), rr.id ≠ r.id := by
    intro rr hrr hid
    have hmem := List.mem_of_mem_filter hrr
    have hactrr : rr.active = true := by simpa using List.of_mem_filter hrr
    rw [hrows rr hmem hid] at hactrr
    exact Bool.noConfusion hactrr
  refine ⟨rfl, hrows, jobCount_unschedule_same _ _, hactive, ?_⟩
  intro st'' hres
  unfold restoreReminders at hres
  have hframe := restore_fold_frame now _ _ st'' hres r.id
    (fun rL hrL => hactive rL hrL)
  rw [hframe]
  exact jobCount_unschedule_same _ _

theorem c5_witness :
    (getReminder onceState sampleOnce.id = some sampleOnce ∧ sampleOnce.active = true ∧
      sampleOnce.rtype = "once") ∧
    (fireReminder onceState sampleOnce.id).2 =
      [.broadcastMsg sampleOnce.text sampleOnce.media_path,
       .storeSetActive sampleOnce.id false, .schedRemoveJob sampleOnce.id] ∧
    jobCount (fireReminder onceState sampleOnce.id).1 sampleOnce.id = 0 := by
  have h := c5_once_fire_order onceState sampleOnce 0 rfl rfl rfl
  exact ⟨⟨rfl, rfl, rfl⟩, h.1, h.2.2.1⟩

/-- C6: registering a `once` reminder whose `run_at` is strictly before now
deactivates the row in the store and registers no job, so the reminder is
never fired retroactively. -/
theorem c6_past_once_deactivated (now : Nat) (st : SysState) (r : Reminder) (t : Nat)
    (hty : r.rtype = "once") (hrun : r.run_at = some t) (hpast : t < now) :
    scheduleReminder now st r =
      .ok (setReminderActive (unscheduleReminder st r.id) r.id false) ∧
    jobCount (setReminderActive (unscheduleReminder st r.id) r.id false) r.id = 0 ∧
    (∀ r' ∈ (setReminderActive (unscheduleReminder st r.id) r.id false).reminders,
      r'.id = r.id → r'.active = false) := by
  refine ⟨?_, ?_, ?_⟩
  · unfold scheduleReminder schedDecision
    simp [hty, hrun, hpast]
  · exact jobCount_unschedule_same st r.id
  · intro r' hr' hid
    exact setActive_active_at hr' hid

theorem c6_witness :
    (pastOnce.rtype = "once" ∧ pastOnce.run_at = some 100 ∧ 100 < 200) ∧
    scheduleReminder 200 ⟨[pastOnce], []⟩ pastOnce =
      .ok (setReminderActive (unscheduleReminder ⟨[pastOnce], []⟩ pastOnce.id)
        pastOnce.id false) := by
  have h := c6_past_once_deactivated 200 ⟨[pastOnce], []⟩ pastOnce 100 rfl rfl (by decide)
  exact ⟨⟨rfl, rfl, by decide⟩, h.1⟩

/-- C10: a fire whose reminder id no longer exists in the store, or whose row
is inactive, performs no broadcast and no store or scheduler mutation — the
stale fire is a complete no-op. -/
theorem c10_stale_fire_noop (st : SysState) (i : Nat)
    (h : getReminder st i = none ∨ ∃ r, getReminder st i = some r ∧ r.active = false) :
    fireReminder st i = (st, []) := by
  unfold fireReminder
  rcases h with h | ⟨r, h, hact⟩
  · rw [h]
  · rw [h]
    simp [hact]

theorem c10_witness :
    (∃ r, getReminder ⟨[staleReminder], []⟩ 6 = some r ∧ r.active = false) ∧
    fireReminder ⟨[staleReminder], []⟩ 6 = (⟨[staleReminder], []⟩, []) :=
  ⟨⟨staleReminder, rfl, rfl⟩,
    c10_stale_fire_noop ⟨[staleReminder], []⟩ 6 (Or.inr ⟨staleReminder, rfl, rfl⟩)⟩

end TgBot
